import Mathlib

/-!
Verification of the WQ-Simulator core against its specification.

The C++ sources are shallowly embedded in Lean:
 * C++ `double` values are modelled as rationals (`ℚ`); quantities that the
   code obtains through `std::sqrt` / `std::tanh` are modelled as real
   numbers derived from the rational state.
 * `std::vector` buffers become `List`, `std::unordered_map` becomes an
   association list (`List (String × _)`) or a function `String → Option _`.
 * Functions returning `std::optional` become `Option`-valued functions.
 * Free-text reason strings are built with Lean's `toString` in place of the
   C++ `std::to_string` numeric formatting; only their accumulation
   structure is reasoned about, never their exact text.
-/

/- ------------------------------------------------------------------ -/
/- Signal aggregator (services/signal-aggregator)                     -/
/- ------------------------------------------------------------------ -/

/-- AlphaSignal as buffered by the aggregator
(services/signal-aggregator/include/signal_aggregator.hpp). -/
structure AlphaSignalRec where
  alphaId : String
  symbol : String
  signal : ℚ
  confidence : ℚ
  timestampNs : ℤ
deriving DecidableEq

/-- AggregatorConfig::MIN_CONFIDENCE_THRESHOLD = 0.3. -/
def MIN_CONFIDENCE_THRESHOLD : ℚ := 3/10

/-- AggregatorConfig::MAX_SIGNALS_PER_SYMBOL = 1000. -/
def MAX_SIGNALS_PER_SYMBOL : ℕ := 1000

/-- TargetPosition produced by SignalAggregator::generateTargetPortfolio. -/
structure TargetPosition where
  symbol : String
  targetQuantity : ℚ
  currentQuantity : ℚ
  timestampNs : ℤ
deriving DecidableEq

/-- WeightedAverageAggregation::aggregate
(services/signal-aggregator/src/signal_aggregator.cpp, lines 9-37). -/
def weightedAverageAggregate (signals : List AlphaSignalRec) : ℚ :=
  if signals.isEmpty then 0
  else
    let filtered := signals.filter
      (fun s => decide (s.confidence ≥ MIN_CONFIDENCE_THRESHOLD))
    if filtered.isEmpty then 0
    else
      let weightedSum := (filtered.map (fun s => s.signal * s.confidence)).sum
      let totalWeight := (filtered.map (fun s => s.confidence)).sum
      weightedSum / totalWeight

/-- Insertion of a value into an ascending list; `sortAscending` models the
result of `std::sort(values.begin(), values.end(), a < b)`, which for a list
of rationals is the unique ascending reordering. -/
def insertSorted (x : ℚ) : List ℚ → List ℚ
  | [] => [x]
  | y :: ys => if x ≤ y then x :: y :: ys else y :: insertSorted x ys

/-- The ascending reordering of a list of rational values. -/
def sortAscending (l : List ℚ) : List ℚ := l.foldr insertSorted []

/-- The tail of MedianAggregation::aggregate after the value list has been
built: empty check, sort, middle element (average of the two middles for an
even count) — signal_aggregator.cpp lines 55-67. -/
def medianOfValues (values : List ℚ) : ℚ :=
  if values.isEmpty then 0
  else
    let sorted := sortAscending values
    let mid := sorted.length / 2
    if sorted.length % 2 = 0 then (sorted.getD (mid - 1) 0 + sorted.getD mid 0) / 2
    else sorted.getD mid 0

/-- MedianAggregation::aggregate (signal_aggregator.cpp, lines 40-68):
maps each signal to its value when confident enough and to 0.0 otherwise,
then erases every 0.0 (std::remove), then takes the median. -/
def medianAggregate (signals : List AlphaSignalRec) : ℚ :=
  if signals.isEmpty then 0
  else
    let values := signals.map
      (fun s => if s.confidence ≥ MIN_CONFIDENCE_THRESHOLD then s.signal else 0)
    medianOfValues (values.filter (fun v => decide (v ≠ 0)))

/-- Modelled from the spec for the comparison in claim C2: the Median policy
as the spec words it — keep exactly the signals with confidence at or above
the threshold (zero-valued signals included), then take the median. -/
def medianPerClaim (signals : List AlphaSignalRec) : ℚ :=
  medianOfValues
    ((signals.filter (fun s => decide (s.confidence ≥ MIN_CONFIDENCE_THRESHOLD))).map
      (fun s => s.signal))

/-- Per-symbol signal buffers of SignalAggregator (`signalsBySymbol_`);
the unordered map is modelled as an association list in insertion order. -/
abbrev AggState := List (String × List AlphaSignalRec)

/-- Push a signal into one symbol buffer and evict the oldest entry when the
capacity bound is exceeded (SignalAggregator::addSignal, lines 77-83). -/
def pushEvict (l : List AlphaSignalRec) (sig : AlphaSignalRec) : List AlphaSignalRec :=
  let l1 := l ++ [sig]
  if l1.length > MAX_SIGNALS_PER_SYMBOL then l1.tail else l1

/-- SignalAggregator::addSignal: `signalsBySymbol_[symbol]` creates an empty
buffer on first use, then push_back plus capacity eviction. -/
def addSignal (st : AggState) (sig : AlphaSignalRec) : AggState :=
  match st with
  | [] => [(sig.symbol, pushEvict [] sig)]
  | (k, l) :: rest =>
    if k = sig.symbol then (k, pushEvict l sig) :: rest
    else (k, l) :: addSignal rest sig

/-- SignalAggregator::generateTargetPortfolio (lines 86-105): one
TargetPosition per map entry; `now` stands for the clock read. -/
def generateTargetPortfolio (agg : List AlphaSignalRec → ℚ) (now : ℤ)
    (st : AggState) : List TargetPosition :=
  st.map (fun p => ⟨p.1, agg p.2 * 1000, 0, now⟩)

/-- SignalAggregator::clearSignalsOlderThan (lines 118-132): remove from every
buffer the signals with `timestampNs < ts`; map entries themselves stay. -/
def clearSignalsOlderThan (ts : ℤ) (st : AggState) : AggState :=
  st.map (fun p => (p.1, p.2.filter (fun s => !(decide (s.timestampNs < ts)))))

/- ------------------------------------------------------------------ -/
/- Alpha strategies (services/alpha-engine)                           -/
/- ------------------------------------------------------------------ -/

/- The strategies consume MarketData ticks but read only `data.price`; the
identity fields (alphaId, symbol, timestampNs) are threaded into the emitted
AlphaSignal unchanged, so the embedding passes the price alone and emits the
numeric core of the signal. -/

/-- Private state of MeanReversionAlpha
(services/alpha-engine/include/alpha_strategy.hpp, lines 72-76). -/
structure MRState where
  windowSize : ℕ
  priceHistory : List ℚ
  initialized : Bool
deriving DecidableEq

/-- The numeric content of an AlphaSignal emitted by MeanReversionAlpha:
the tick price together with the window mean and (population) variance from
which z-score, signal and confidence are computed. -/
structure MRSignalCore where
  price : ℚ
  mean : ℚ
  variance : ℚ
deriving DecidableEq

/-- MeanReversionAlpha::initialize (alpha_strategy.cpp, lines 15-18):
clear the history, set `initialized_`. -/
def mrInit (s : MRState) : MRState := ⟨s.windowSize, [], true⟩

/-- MeanReversionAlpha::shutdown (alpha_strategy.cpp, lines 20-23):
clear the history, reset `initialized_`. -/
def mrShutdown (s : MRState) : MRState := ⟨s.windowSize, [], false⟩

/-- MeanReversionAlpha::calculateMean (alpha_strategy.cpp, lines 78-81). -/
def calculateMean (h : List ℚ) : ℚ := h.sum / h.length

/-- MeanReversionAlpha::calculateStdDev (alpha_strategy.cpp, lines 83-92)
before the final `std::sqrt`: the population variance (divide by N). -/
def calculateVariance (h : List ℚ) : ℚ :=
  (h.map (fun price => (price - calculateMean h) ^ 2)).sum / h.length

/-- The square of the 1e-6 volatility cut-off: the code tests
`stdDev < 1e-6`; since the standard deviation is `√variance` with
`variance ≥ 0` and squaring is monotone on nonnegatives, this is exactly
`variance < 1e-12`, which keeps the test inside `ℚ`. -/
def STD_DEV_MIN_SQ : ℚ := 1/1000000000000

/-- MeanReversionAlpha::onMarketData (alpha_strategy.cpp, lines 29-76):
reject when uninitialized; push the price and evict the oldest entry beyond
the window; require a full window; reject when volatility is below 1e-6;
otherwise emit the numeric signal core. -/
def mrOnMarketData (s : MRState) (price : ℚ) : MRState × Option MRSignalCore :=
  if !s.initialized then (s, none)
  else
    let h1 := s.priceHistory ++ [price]
    let h2 := if h1.length > s.windowSize then h1.tail else h1
    let s1 : MRState := ⟨s.windowSize, h2, s.initialized⟩
    if h2.length < s.windowSize then (s1, none)
    else
      let mean := calculateMean h2
      let variance := calculateVariance h2
      if variance < STD_DEV_MIN_SQ then (s1, none)
      else (s1, some ⟨price, mean, variance⟩)

/-- Feed a list of ticks to MeanReversionAlpha, collecting one
`Option MRSignalCore` per tick. -/
def mrFeed (s : MRState) : List ℚ → MRState × List (Option MRSignalCore)
  | [] => (s, [])
  | p :: ps =>
    let step := mrOnMarketData s p
    let rest := mrFeed step.1 ps
    (rest.1, step.2 :: rest.2)

/-- The standard deviation computed by MeanReversionAlpha (the `std::sqrt`
of the population variance), as a real number. -/
noncomputable def mrStdDev (c : MRSignalCore) : ℝ := Real.sqrt (c.variance : ℝ)

/-- zScore = (price − mean) / stdDev (alpha_strategy.cpp, line 53). -/
noncomputable def mrZScore (c : MRSignalCore) : ℝ :=
  ((c.price : ℝ) - (c.mean : ℝ)) / mrStdDev c

/-- The emitted signal: −zScore clamped to
[AlphaConfig::MIN_SIGNAL, AlphaConfig::MAX_SIGNAL] = [−1, 1]
(alpha_strategy.cpp, lines 56-60). -/
noncomputable def mrSignalValue (c : MRSignalCore) : ℝ :=
  max (-1) (min 1 (-(mrZScore c)))

/-- The emitted confidence: min(1.0, |zScore| / 3.0)
(alpha_strategy.cpp, line 63). -/
noncomputable def mrConfidence (c : MRSignalCore) : ℝ :=
  min 1 (|mrZScore c| / 3)

/-- Private state of MomentumAlpha (alpha_strategy.hpp, lines 96-101):
a lookback period, a rolling buffer of simple returns, and the last seen
price. There is no initialized flag. -/
structure MomState where
  lookbackPeriod : ℕ
  returns : List ℚ
  lastPrice : Option ℚ
deriving DecidableEq

/-- The numeric content of an AlphaSignal emitted by MomentumAlpha. -/
structure MomSignalCore where
  cumulativeReturn : ℚ
  consistency : ℚ
deriving DecidableEq

/-- MomentumAlpha::initialize (alpha_strategy.cpp, lines 101-104):
clear the returns, reset the last price. -/
def momInit (s : MomState) : MomState := ⟨s.lookbackPeriod, [], none⟩

/-- MomentumAlpha::shutdown (alpha_strategy.cpp, lines 106-109): the same
body as initialize — clear the returns, reset the last price. -/
def momShutdown (s : MomState) : MomState := ⟨s.lookbackPeriod, [], none⟩

/-- The returns buffer after a tick (alpha_strategy.cpp, lines 112-120):
if a previous price exists, append `(price − prev)/prev` and evict the
oldest entry beyond the lookback period. -/
def momReturnsAfter (s : MomState) (price : ℚ) : List ℚ :=
  match s.lastPrice with
  | none => s.returns
  | some lp =>
    let r1 := s.returns ++ [(price - lp) / lp]
    if r1.length > s.lookbackPeriod then r1.tail else r1

/-- The consistency (confidence) of MomentumAlpha (alpha_strategy.cpp,
lines 136-138): twice the distance of the positive-return fraction
from one half. -/
def momConsistency (rets : List ℚ) : ℚ :=
  |((rets.filter (fun r => decide (r > 0))).length : ℚ) / rets.length - 1/2| * 2

/-- MomentumAlpha::onMarketData (alpha_strategy.cpp, lines 111-150):
update the returns buffer and last price, require a full buffer, emit the
cumulative return and consistency. -/
def momOnMarketData (s : MomState) (price : ℚ) : MomState × Option MomSignalCore :=
  let rets := momReturnsAfter s price
  let s1 : MomState := ⟨s.lookbackPeriod, rets, some price⟩
  if rets.length < s.lookbackPeriod then (s1, none)
  else (s1, some ⟨rets.sum, momConsistency rets⟩)

/-- Feed a list of ticks to MomentumAlpha. -/
def momFeed (s : MomState) : List ℚ → MomState × List (Option MomSignalCore)
  | [] => (s, [])
  | p :: ps =>
    let step := momOnMarketData s p
    let rest := momFeed step.1 ps
    (rest.1, step.2 :: rest.2)

/-- The emitted momentum signal: tanh(cumulativeReturn · 10)
(alpha_strategy.cpp, line 133). -/
noncomputable def momSignalValue (c : MomSignalCore) : ℝ :=
  Real.tanh ((c.cumulativeReturn : ℝ) * 10)

/- ------------------------------------------------------------------ -/
/- Data feed normalizer (services/data-feed-handler)                  -/
/- ------------------------------------------------------------------ -/

/-- AssetType enum (data_types.hpp, lines 13-18). -/
inductive AssetType where
  | EQUITY | FUTURE | OPTION | UNKNOWN
deriving DecidableEq

/-- Exchange enum (data_types.hpp, lines 21-26). -/
inductive Exchange where
  | NYSE | NASDAQ | CME | UNKNOWN
deriving DecidableEq

/-- MarketData / CanonicalTick (data_types.hpp, lines 48-102). -/
structure MarketDataRec where
  symbol : String
  bidPrice : ℚ
  askPrice : ℚ
  lastPrice : ℚ
  bidSize : ℤ
  askSize : ℤ
  volume : ℤ
  timestampNs : ℤ
  assetType : AssetType
  exchange : Exchange
deriving DecidableEq

/-- MarketData::midPrice (data_types.hpp, lines 94-96). -/
def MarketDataRec.midPrice (d : MarketDataRec) : ℚ := (d.bidPrice + d.askPrice) / 2

/-- MarketData::spread (data_types.hpp, lines 99-101). -/
def MarketDataRec.spread (d : MarketDataRec) : ℚ := d.askPrice - d.bidPrice

/-- DataNormalizer::validate (data_types.hpp, lines 113-115):
`bid > 0 && ask > 0 && ask >= bid`. -/
def baseValidate (d : MarketDataRec) : Bool :=
  decide (d.bidPrice > 0) && decide (d.askPrice > 0) && decide (d.askPrice ≥ d.bidPrice)

/-- NYSENormalizer::validate (data_types.cpp, lines 39-51): base validation
plus rejection of a spread above 10% of the mid price. -/
def nyseValidate (d : MarketDataRec) : Bool :=
  baseValidate d && !(decide (d.spread > d.midPrice * (1/10)))

/-- The parsed-field view of a raw byte frame: `parseField<T>` copies a
little-endian scalar from a fixed offset, so a frame is modelled by its
length together with the values decoded at the offsets the normalizers
read (doubles at 0/8/16 as `ℚ`, int64 at 24/32/40/48 as `ℤ`) and the
NUL-terminated symbol at offset 56. The byte-level IEEE-754 decoding
itself is not modelled. -/
structure RawFrame where
  length : ℕ
  doubleAt0 : ℚ
  doubleAt8 : ℚ
  doubleAt16 : ℚ
  intAt24 : ℤ
  intAt32 : ℤ
  intAt40 : ℤ
  intAt48 : ℤ
  symbolAt56 : String
deriving DecidableEq

/-- NYSENormalizer::normalize (data_types.cpp, lines 8-37): reject frames
shorter than 64 bytes; read bid/ask/last at offsets 0/8/16, the integer
fields at 24/32/40/48 and the symbol at 56; reject ticks failing NYSE
validation. -/
def nyseNormalize (f : RawFrame) : Option MarketDataRec :=
  if f.length < 64 then none
  else
    let d : MarketDataRec :=
      ⟨f.symbolAt56, f.doubleAt0, f.doubleAt8, f.doubleAt16,
       f.intAt24, f.intAt32, f.intAt40, f.intAt48,
       AssetType.EQUITY, Exchange.NYSE⟩
    if nyseValidate d then some d else none

/- ------------------------------------------------------------------ -/
/- Risk guardian (services/risk-guardian)                             -/
/- ------------------------------------------------------------------ -/

/-- OrderSide enum (risk_checks.hpp, lines 14-17). -/
inductive OrderSide where
  | BUY | SELL
deriving DecidableEq

/-- ViolationType enum (risk_checks.hpp, lines 20-26). -/
inductive ViolationType where
  | FAT_FINGER | DRAWDOWN | CONCENTRATION | POSITION_LIMIT | NONE
deriving DecidableEq

/-- Order structure (risk_checks.hpp, lines 39-50). -/
structure Order where
  orderId : String
  symbol : String
  quantity : ℚ
  side : OrderSide
  price : ℚ
  timestampNs : ℤ
deriving DecidableEq

/-- Position structure (risk_checks.hpp, lines 53-61); the constructor
zeroes every numeric field. -/
structure Position where
  symbol : String
  quantity : ℚ
  avgCost : ℚ
  unrealizedPnL : ℚ
  realizedPnL : ℚ
deriving DecidableEq

/-- The state of a DrawdownCheck (risk_checks.hpp, lines 105-120). -/
structure DrawdownCheckState where
  maxDrawdownPercentage : ℚ
  startOfDayNAV : ℚ
  currentPnL : ℚ
deriving DecidableEq

/-- The failure message of DrawdownCheck::validate (risk_checks.cpp,
lines 49-52), numeric formatting abstracted to `toString`. -/
def drawdownMsg (currentDrawdown maxPct : ℚ) : String :=
  "Strategy is in " ++ toString (currentDrawdown * 100) ++
    "% drawdown, exceeds limit of " ++ toString (maxPct * 100) ++ "%"

/-- DrawdownCheck::validate (risk_checks.cpp, lines 39-58), returning
`none` on acceptance and `some reason` on rejection (the C++ returns a bool
and writes `reason` on rejection). -/
def drawdownValidate (c : DrawdownCheckState) (o : Order) : Option String :=
  if c.startOfDayNAV ≤ 0 then none
  else
    let currentDrawdown := -c.currentPnL / c.startOfDayNAV
    if currentDrawdown > c.maxDrawdownPercentage then
      if o.side = OrderSide.BUY then
        some (drawdownMsg currentDrawdown c.maxDrawdownPercentage)
      else none
    else none

/-- The failure message of FatFingerCheck::validate (risk_checks.cpp,
lines 22-24), numeric formatting abstracted to `toString`. -/
def fatFingerMsg (quantity maxPct maxAllowedQty : ℚ) : String :=
  "Order quantity " ++ toString quantity ++ " exceeds " ++
    toString (maxPct * 100) ++ "% of ADV (" ++ toString maxAllowedQty ++ ")"

/-- The failure message of ConcentrationCheck::validate (risk_checks.cpp,
lines 88-92), numeric formatting abstracted to `toString`. -/
def concentrationMsg (concentration : ℚ) (symbol : String) (maxPct : ℚ) : String :=
  "Order would result in " ++ toString (concentration * 100) ++
    "% concentration in " ++ symbol ++ ", exceeds limit of " ++
    toString (maxPct * 100) ++ "%"

/-- The three concrete risk checks with their captured state
(risk_checks.hpp, lines 88-138). -/
inductive RiskCheckSpec where
  | fatFinger (maxAdvPercentage : ℚ) (advMap : List (String × ℚ))
  | drawdown (state : DrawdownCheckState)
  | concentration (maxConcentrationPercentage : ℚ)
      (positionValues : List (String × ℚ)) (totalNAV : ℚ)
deriving DecidableEq

/-- `validate(order, reason)` for each check (risk_checks.cpp):
`none` on acceptance, `some reason` on rejection. -/
def checkValidate (c : RiskCheckSpec) (o : Order) : Option String :=
  match c with
  | .fatFinger maxPct advMap =>
    match advMap.lookup o.symbol with
    | none => none
    | some adv =>
      let maxAllowedQty := adv * maxPct
      if |o.quantity| > maxAllowedQty then
        some (fatFingerMsg o.quantity maxPct maxAllowedQty)
      else none
  | .drawdown st => drawdownValidate st o
  | .concentration maxPct positionValues totalNAV =>
    if totalNAV ≤ 0 then none
    else
      let currentValue := (positionValues.lookup o.symbol).getD 0
      let newValue := currentValue + o.quantity * o.price
      let concentration := |newValue| / totalNAV
      if concentration > maxPct then
        some (concentrationMsg concentration o.symbol maxPct)
      else none

/-- A registered check together with its `enabled_` flag
(IRiskCheck, risk_checks.hpp, lines 64-85). -/
structure RiskCheckInst where
  spec : RiskCheckSpec
  enabled : Bool
deriving DecidableEq

/-- RiskCheckResult (risk_checks.hpp, lines 141-156); constructed with
`approved = true`, no violations and an empty reason. -/
structure RiskCheckResult where
  approved : Bool
  violations : List ViolationType
  reason : String
deriving DecidableEq

/-- RiskCheckResult::addViolation (risk_checks.hpp, lines 148-155). -/
def RiskCheckResult.addViolation (r : RiskCheckResult) (t : ViolationType)
    (msg : String) : RiskCheckResult :=
  ⟨false, r.violations ++ [t],
   if r.reason = "" then msg else r.reason ++ "; " ++ msg⟩

/-- RiskCheckAggregator::validateAll (risk_checks.hpp, lines 168-183):
skip disabled checks; every failing check contributes
`addViolation(ViolationType::NONE, reason)`, where `reason` is the message
the failing validate just wrote (each failing validate assigns the shared
reason string before returning false). -/
def validateStep (o : Order) (res : RiskCheckResult) (c : RiskCheckInst) : RiskCheckResult :=
  if !c.enabled then res
  else
    match checkValidate c.spec o with
    | none => res
    | some msg => res.addViolation ViolationType.NONE msg

/-- The loop of RiskCheckAggregator::validateAll, starting from a fresh
RiskCheckResult. -/
def validateAll (checks : List RiskCheckInst) (o : Order) : RiskCheckResult :=
  checks.foldl (validateStep o) ⟨true, [], ""⟩

/-- The reason messages of the enabled checks that fail on an order, in
check order. -/
def failureMessages (checks : List RiskCheckInst) (o : Order) : List String :=
  checks.filterMap (fun c => if c.enabled then checkValidate c.spec o else none)

/-- Joining reason messages the way repeated addViolation calls do:
"; "-separated starting from an empty accumulated reason. -/
def joinReasons (msgs : List String) : String :=
  msgs.foldl (fun acc m => if acc = "" then m else acc ++ "; " ++ m) ""

/- ------------------------------------------------------------------ -/
/- Position manager (services/risk-guardian)                          -/
/- ------------------------------------------------------------------ -/

/-- The `positions_` map of PositionManager
(risk_guardian.hpp / risk_guardian.cpp), modelled as a partial map. -/
abbrev PMState := String → Option Position

/-- PositionManager::getPosition (risk_guardian.cpp, lines 8-23): return
the stored position, lazily creating a zeroed position carrying the symbol
on first access; the pair is (position read, map after the access). -/
def getPosition (m : PMState) (sym : String) : Position × PMState :=
  match m sym with
  | some p => (p, m)
  | none =>
    let p : Position := ⟨sym, 0, 0, 0, 0⟩
    (p, fun s => if s = sym then some p else m s)

/-- PositionManager::updatePosition (risk_guardian.cpp, lines 30-46):
fetch (creating if absent), then set
`avgCost = (oldQty·avgCost + quantity·price) / newQty` when the new
quantity is non-zero and 0 otherwise, and store the new quantity. -/
def updatePosition (m : PMState) (sym : String) (quantity price : ℚ) : PMState :=
  let fetched := getPosition m sym
  let pos := fetched.1
  let m1 := fetched.2
  let oldQty := pos.quantity
  let newQty := oldQty + quantity
  let newAvg := if newQty ≠ 0 then (oldQty * pos.avgCost + quantity * price) / newQty else 0
  let pos1 : Position := ⟨pos.symbol, newQty, newAvg, pos.unrealizedPnL, pos.realizedPnL⟩
  fun s => if s = sym then some pos1 else m1 s

/- ------------------------------------------------------------------ -/
/- Theorems                                                           -/
/- ------------------------------------------------------------------ -/

/-- Helper: erasing the zeros from the mapped value list of
MedianAggregation::aggregate keeps exactly the signal values of the signals
that are both confident enough and non-zero. -/
theorem dezero_map_eq_filter (signals : List AlphaSignalRec) :
    (signals.map
        (fun s => if s.confidence ≥ MIN_CONFIDENCE_THRESHOLD then s.signal else 0)).filter
        (fun v => decide (v ≠ 0)) =
      (signals.filter
        (fun s => decide (s.confidence ≥ MIN_CONFIDENCE_THRESHOLD) &&
          decide (s.signal ≠ 0))).map (fun s => s.signal) := by
  induction signals with
  | nil => rfl
  | cons s rest ih =>
    simp only [List.map_cons, List.filter_cons]
    by_cases hc : s.confidence ≥ MIN_CONFIDENCE_THRESHOLD
    · by_cases hs : s.signal = 0
      · simp [hc, hs]
        simpa using ih
      · simp [hc, hs]
        simpa using ih
    · simp [hc]
      simpa using ih

/-- Claim C2 (corrected): the Median policy does not keep every signal with
confidence at or above the threshold — it keeps exactly the signals with
confidence ≥ MIN_CONFIDENCE_THRESHOLD (0.3) AND a non-zero signal value
(confident zero-valued signals are erased along with the filtered-out
ones), then sorts the kept values and returns the middle element, averaging
the two middles for an even count, with 0 for an empty result. -/
theorem medianAggregate_keeps_confident_nonzero (signals : List AlphaSignalRec) :
    medianAggregate signals =
      medianOfValues
        ((signals.filter
          (fun s => decide (s.confidence ≥ MIN_CONFIDENCE_THRESHOLD) &&
            decide (s.signal ≠ 0))).map (fun s => s.signal)) := by
  by_cases h : signals.isEmpty = true
  · rw [List.isEmpty_iff] at h
    subst h
    rfl
  · unfold medianAggregate
    rw [if_neg h]
    exact congrArg medianOfValues (dezero_map_eq_filter signals)

/-- Claim C2 counterexample: on a buffer holding a confident zero signal and
a confident one-half signal, the code's Median returns 1/2, while the
claimed filtering (keep every confident signal, zeros included) would
return the average (0 + 1/2)/2 = 1/4. -/
theorem medianAggregate_drops_confident_zero :
    medianAggregate [⟨"a", "A", 0, 9/10, 0⟩, ⟨"b", "A", 1/2, 9/10, 0⟩] = 1/2 ∧
    medianPerClaim [⟨"a", "A", 0, 9/10, 0⟩, ⟨"b", "A", 1/2, 9/10, 0⟩] = 1/4 ∧
    (1/2 : ℚ) ≠ 1/4 := by
  refine ⟨?_, ?_, by norm_num⟩
  · norm_num [medianAggregate, medianOfValues, sortAscending, insertSorted,
      MIN_CONFIDENCE_THRESHOLD]
  · norm_num [medianPerClaim, medianOfValues, sortAscending, insertSorted,
      MIN_CONFIDENCE_THRESHOLD, List.filter]

/-- Helper: `getD` at an index below the length commutes with `map`. -/
theorem getD_map_of_lt {α β : Type} (f : α → β) (l : List α) (i : ℕ)
    (da : α) (db : β) (h : i < l.length) :
    (l.map f).getD i db = f (l.getD i da) := by
  induction l generalizing i with
  | nil => simp at h
  | cons x xs ih =>
    cases i with
    | zero => rfl
    | succ j =>
      simp only [List.map_cons, List.getD_cons_succ]
      exact ih j (by simpa using h)

/-- Claim C3 (corrected): generateTargetPortfolio produces one
TargetPosition for every entry of the per-symbol map — including symbols
whose buffer has become empty (for example after clear_older_than evicted
all of their signals), which contribute an entry with
target_quantity = aggregate([]) · 1000 = 0 — with
target_quantity = aggregate(buffer) · 1000 and current_quantity = 0. -/
theorem generateTargetPortfolio_per_entry (agg : List AlphaSignalRec → ℚ)
    (now : ℤ) (st : AggState) (hagg : agg [] = 0) :
    (generateTargetPortfolio agg now st).length = st.length ∧
    (∀ i, i < st.length →
      (generateTargetPortfolio agg now st).getD i ⟨"", 0, 0, 0⟩ =
        ⟨(st.getD i ("", [])).1, agg (st.getD i ("", [])).2 * 1000, 0, now⟩ ∧
      ((st.getD i ("", [])).2 = [] →
        ((generateTargetPortfolio agg now st).getD i ⟨"", 0, 0, 0⟩).targetQuantity = 0)) := by
  constructor
  · simp [generateTargetPortfolio]
  · intro i hi
    have hmap :
        (generateTargetPortfolio agg now st).getD i ⟨"", 0, 0, 0⟩ =
          ⟨(st.getD i ("", [])).1, agg (st.getD i ("", [])).2 * 1000, 0, now⟩ := by
      unfold generateTargetPortfolio
      exact getD_map_of_lt _ st i ("", []) _ hi
    refine ⟨hmap, fun hempty => ?_⟩
    rw [hmap]
    show agg (st.getD i ("", [])).2 * 1000 = 0
    rw [hempty, hagg, zero_mul]

/-- Witness for generateTargetPortfolio_per_entry at a concrete map with one
empty buffer under the WeightedAverage policy. -/
theorem generateTargetPortfolio_per_entry_witness :
    (generateTargetPortfolio weightedAverageAggregate 7 [("A", [])]).length = 1 ∧
    (generateTargetPortfolio weightedAverageAggregate 7 [("A", [])]).getD 0 ⟨"", 0, 0, 0⟩ =
      ⟨"A", 0, 0, 7⟩ := by
  have h := generateTargetPortfolio_per_entry weightedAverageAggregate 7 [("A", [])] rfl
  refine ⟨h.1, ?_⟩
  rw [(h.2 0 (by norm_num)).1]
  norm_num [weightedAverageAggregate]

/-- Claim C3 counterexample: add one signal for symbol "A" at timestamp 5,
evict it via clearSignalsOlderThan 10 (the buffer for "A" becomes empty but
the map entry stays), and generateTargetPortfolio still produces an entry
for "A" (with target 0) where the claim demands none. -/
theorem generateTargetPortfolio_empty_buffer_entry :
    clearSignalsOlderThan 10 (addSignal [] ⟨"mr", "A", 1/2, 9/10, 5⟩) = [("A", [])] ∧
    generateTargetPortfolio weightedAverageAggregate 99
        (clearSignalsOlderThan 10 (addSignal [] ⟨"mr", "A", 1/2, 9/10, 5⟩)) =
      [⟨"A", 0, 0, 99⟩] ∧
    ([⟨"A", 0, 0, 99⟩] : List TargetPosition).length ≠ 0 := by
  refine ⟨?_, ?_, by norm_num⟩
  · norm_num [clearSignalsOlderThan, addSignal, pushEvict, MAX_SIGNALS_PER_SYMBOL,
      List.filter]
  · norm_num [generateTargetPortfolio, clearSignalsOlderThan, addSignal, pushEvict,
      weightedAverageAggregate, MAX_SIGNALS_PER_SYMBOL, List.filter]

/-- Helper: the validateAll fold from an arbitrary intermediate result,
characterized by the messages of the enabled failing checks. -/
theorem validateAll_foldl (o : Order) (checks : List RiskCheckInst) :
    ∀ res : RiskCheckResult,
      checks.foldl (validateStep o) res =
        ⟨res.approved && (failureMessages checks o).isEmpty,
         res.violations ++ (failureMessages checks o).map (fun _ => ViolationType.NONE),
         (failureMessages checks o).foldl
           (fun acc m => if acc = "" then m else acc ++ "; " ++ m) res.reason⟩ := by
  induction checks with
  | nil =>
    intro res
    simp [failureMessages]
  | cons c cs ih =>
    intro res
    rw [List.foldl_cons, ih]
    by_cases hen : c.enabled
    · cases hval : checkValidate c.spec o with
      | none =>
        simp [validateStep, hen, hval, failureMessages, List.filterMap_cons]
      | some msg =>
        simp [validateStep, hen, hval, failureMessages, List.filterMap_cons,
          RiskCheckResult.addViolation]
    · simp [validateStep, hen, failureMessages, List.filterMap_cons]

/-- Claim C4 (corrected): when the risk battery rejects an order the result
has approved = false, accumulates (joined with "; ") the reason message of
every failing enabled check, and carries one violation tag per failing
enabled check — but every tag is ViolationType.NONE regardless of which
check failed, rather than a kind identifying the check. -/
theorem validateAll_result_structure (checks : List RiskCheckInst) (o : Order) :
    (validateAll checks o).approved = (failureMessages checks o).isEmpty ∧
    (validateAll checks o).violations =
      (failureMessages checks o).map (fun _ => ViolationType.NONE) ∧
    (validateAll checks o).reason = joinReasons (failureMessages checks o) := by
  unfold validateAll joinReasons
  rw [validateAll_foldl o checks ⟨true, [], ""⟩]
  exact ⟨by simp, rfl, rfl⟩

/-- Claim C4 counterexample: a failing fat-finger check (ADV 1,000,000,
cap 5%, order quantity 60,000) is rejected, but its violation tag is
ViolationType.NONE, not ViolationType.FAT_FINGER as the claim requires. -/
theorem validateAll_tag_is_not_fat_finger :
    (validateAll [⟨RiskCheckSpec.fatFinger (1/20) [("AAPL", 1000000)], true⟩]
        ⟨"o1", "AAPL", 60000, OrderSide.BUY, 150, 0⟩).approved = false ∧
    (validateAll [⟨RiskCheckSpec.fatFinger (1/20) [("AAPL", 1000000)], true⟩]
        ⟨"o1", "AAPL", 60000, OrderSide.BUY, 150, 0⟩).violations = [ViolationType.NONE] ∧
    ViolationType.NONE ≠ ViolationType.FAT_FINGER := by
  refine ⟨?_, ?_, by simp⟩ <;>
    norm_num [validateAll, validateStep, checkValidate, RiskCheckResult.addViolation,
      List.lookup]

/-- Helper: an uninitialized MeanReversionAlpha ignores ticks entirely. -/
theorem mrOnMarketData_of_uninitialized (s : MRState) (p : ℚ)
    (h : s.initialized = false) : mrOnMarketData s p = (s, none) := by
  simp [mrOnMarketData, h]

/-- Helper: an uninitialized MeanReversionAlpha emits no signal on any
sequence of further ticks. -/
theorem mrFeed_of_uninitialized (s : MRState) (prices : List ℚ)
    (h : s.initialized = false) :
    ((mrFeed s prices).2.all (fun o => o.isNone)) = true := by
  induction prices with
  | nil => rfl
  | cons p ps ih =>
    simp only [mrFeed, mrOnMarketData_of_uninitialized s p h]
    simpa using ih

/-- Claim C5 (corrected): MeanReversionAlpha::shutdown clears the history
buffer and marks the strategy uninitialized, after which onMarketData emits
no signal no matter how many further ticks are fed; MomentumAlpha::shutdown
clears the returns buffer and resets the last price — exactly the same
state as initialize, there being no initialized flag — so it does not stop
subsequent ticks from rebuilding state and emitting signals. -/
theorem shutdown_state_and_signals (s : MRState) (t : MomState) (prices : List ℚ) :
    (mrShutdown s).priceHistory = [] ∧
    (mrShutdown s).initialized = false ∧
    ((mrFeed (mrShutdown s) prices).2.all (fun o => o.isNone)) = true ∧
    momShutdown t = momInit t ∧
    (momShutdown t).returns = [] ∧
    (momShutdown t).lastPrice = none :=
  ⟨rfl, rfl, mrFeed_of_uninitialized (mrShutdown s) prices rfl, rfl, rfl, rfl⟩

/-- Claim C5 counterexample: a MomentumAlpha with lookback 1, after
shutdown and with no intervening initialize, emits a signal again on the
second further tick (prices 100 then 101 give the return buffer [1/100],
which fills the lookback window). -/
theorem momentum_emits_after_shutdown :
    (momFeed (momShutdown ⟨1, [1/100], some 100⟩) [100, 101]).2 =
      [none, some ⟨1/100, 1⟩] ∧
    some (⟨1/100, 1⟩ : MomSignalCore) ≠ none := by
  refine ⟨?_, by simp⟩
  norm_num [momFeed, momShutdown, momOnMarketData, momReturnsAfter, momConsistency,
    abs_of_nonneg]

/-- Helper: the real hyperbolic tangent lies in [−1, 1]. -/
theorem tanh_mem_unit_interval (x : ℝ) : -1 ≤ Real.tanh x ∧ Real.tanh x ≤ 1 := by
  have hc := Real.cosh_pos x
  have h1 := Real.sinh_lt_cosh x
  have h2 : -Real.cosh x < Real.sinh x := by
    have h3 := Real.sinh_lt_cosh (-x)
    rw [Real.sinh_neg, Real.cosh_neg] at h3
    linarith
  rw [Real.tanh_eq_sinh_div_cosh]
  constructor
  · rw [le_div_iff₀ hc]
    linarith
  · rw [div_le_one hc]
    linarith

/-- Helper: the momentum consistency, twice the distance of the
positive-return fraction from one half, lies in [0, 1]. -/
theorem momConsistency_mem_unit_interval (rets : List ℚ) :
    0 ≤ momConsistency rets ∧ momConsistency rets ≤ 1 := by
  unfold momConsistency
  refine ⟨by positivity, ?_⟩
  rcases Nat.eq_zero_or_pos rets.length with hn | hn
  · rw [hn]
    norm_num [abs_of_nonneg]
  · have hkn : (rets.filter (fun r => decide (r > 0))).length ≤ rets.length :=
      List.length_filter_le _ _
    have hn' : 0 < (rets.length : ℚ) := by exact_mod_cast hn
    have h0 : 0 ≤ ((rets.filter (fun r => decide (r > 0))).length : ℚ) / rets.length :=
      div_nonneg (by positivity) hn'.le
    have h1 : ((rets.filter (fun r => decide (r > 0))).length : ℚ) / rets.length ≤ 1 :=
      (div_le_one hn').mpr (by exact_mod_cast hkn)
    have habs :
        |((rets.filter (fun r => decide (r > 0))).length : ℚ) / rets.length - 1/2| ≤ 1/2 :=
      abs_le.mpr ⟨by linarith, by linarith⟩
    linarith

/-- Claim C6 (confirmed): every signal core emitted by
MeanReversionAlpha::onMarketData or MomentumAlpha::onMarketData, for every
strategy state and tick, yields a signal value in [−1, 1] and a confidence
in [0, 1]. -/
theorem emitted_signal_and_confidence_bounds :
    (∀ (s : MRState) (p : ℚ) (c : MRSignalCore), (mrOnMarketData s p).2 = some c →
      (-1 ≤ mrSignalValue c ∧ mrSignalValue c ≤ 1) ∧
      (0 ≤ mrConfidence c ∧ mrConfidence c ≤ 1)) ∧
    (∀ (t : MomState) (p : ℚ) (c : MomSignalCore), (momOnMarketData t p).2 = some c →
      (-1 ≤ momSignalValue c ∧ momSignalValue c ≤ 1) ∧
      (0 ≤ c.consistency ∧ c.consistency ≤ 1)) := by
  constructor
  · intro s p c _
    refine ⟨⟨le_max_left _ _, ?_⟩, ⟨le_min zero_le_one (by positivity), min_le_left _ _⟩⟩
    exact max_le (by norm_num) (min_le_left _ _)
  · intro t p c h
    simp only [momOnMarketData] at h
    split_ifs at h with hlen
    simp only [Option.some.injEq] at h
    subst h
    exact ⟨tanh_mem_unit_interval _, momConsistency_mem_unit_interval _⟩

/-- Witness for emitted_signal_and_confidence_bounds: a MeanReversion state
with window 2 and history [10] fed the tick 11 emits the core
(price 11, mean 21/2, variance 1/4); a Momentum state with lookback 1 and
last price 100 fed the tick 101 emits the core (return 1/100,
consistency 1). -/
theorem emitted_signal_and_confidence_bounds_witness :
    ((-1 ≤ mrSignalValue ⟨11, 21/2, 1/4⟩ ∧ mrSignalValue ⟨11, 21/2, 1/4⟩ ≤ 1) ∧
     (0 ≤ mrConfidence ⟨11, 21/2, 1/4⟩ ∧ mrConfidence ⟨11, 21/2, 1/4⟩ ≤ 1)) ∧
    ((-1 ≤ momSignalValue ⟨1/100, 1⟩ ∧ momSignalValue ⟨1/100, 1⟩ ≤ 1) ∧
     (0 ≤ (⟨1/100, 1⟩ : MomSignalCore).consistency ∧
      (⟨1/100, 1⟩ : MomSignalCore).consistency ≤ 1)) :=
  ⟨emitted_signal_and_confidence_bounds.1 ⟨2, [10], true⟩ 11 ⟨11, 21/2, 1/4⟩
      (by norm_num [mrOnMarketData, calculateMean, calculateVariance, STD_DEV_MIN_SQ]),
   emitted_signal_and_confidence_bounds.2 ⟨1, [], some 100⟩ 101 ⟨1/100, 1⟩
      (by norm_num [momOnMarketData, momReturnsAfter, momConsistency, abs_of_nonneg])⟩

/-- Helper: the full output trace of MeanReversionAlpha with window 3 on
the prices 10, 10, 10, 13: no signal on the first three ticks (short
window, then zero volatility), and on the 4th tick — the window now being
[10, 10, 13] after eviction — the core (price 13, mean 11, variance 2). -/
theorem mrFeed_10_10_10_13 :
    (mrFeed (mrInit ⟨3, [], false⟩) [10, 10, 10, 13]).2 =
      [none, none, none, some ⟨13, 11, 2⟩] := by
  norm_num [mrFeed, mrInit, mrOnMarketData, calculateMean, calculateVariance,
    STD_DEV_MIN_SQ]

/-- Helper: 1 < √2. -/
theorem one_lt_sqrt_two : 1 < Real.sqrt 2 := by
  rw [show (1 : ℝ) = Real.sqrt 1 from (Real.sqrt_one).symm]
  exact Real.sqrt_lt_sqrt (by norm_num) (by norm_num)

/-- Helper: √2 < 3/2. -/
theorem sqrt_two_lt_three_halves : Real.sqrt 2 < 3/2 :=
  (Real.sqrt_lt' (by norm_num)).mpr (by norm_num)

/-- Helper: the z-score of the core emitted on the 4th tick is
(13 − 11)/√2 = √2. -/
theorem mrZScore_of_fourth_tick : mrZScore ⟨13, 11, 2⟩ = Real.sqrt 2 := by
  unfold mrZScore mrStdDev
  have h2 : Real.sqrt ((((2 : ℚ)) : ℝ)) = Real.sqrt 2 := by norm_num
  rw [h2]
  have hne : Real.sqrt 2 ≠ 0 := by positivity
  rw [div_eq_iff hne]
  have hss : Real.sqrt 2 * Real.sqrt 2 = 2 := Real.mul_self_sqrt (by norm_num)
  push_cast
  linarith

/-- Helper: the confidence of the 4th-tick core is min(1, √2/3) = √2/3. -/
theorem mrConfidence_of_fourth_tick :
    mrConfidence ⟨13, 11, 2⟩ = Real.sqrt 2 / 3 := by
  unfold mrConfidence
  rw [mrZScore_of_fourth_tick, abs_of_nonneg (Real.sqrt_nonneg 2)]
  refine min_eq_right ?_
  have := sqrt_two_lt_three_halves
  linarith

/-- Claim C1 (corrected): with window 3 and prices [10, 10, 10, 13], the
first three ticks emit no signal; on the 4th tick the rolling window is
[10, 10, 13] (the oldest 10 was evicted), so μ = 11, population variance 2
(σ = √2 ≈ 1.414), z = (13 − 11)/√2 = √2 ≈ 1.414,
signal = clamp(−√2) = −1.0, and confidence = min(1, √2/3) = √2/3 ≈ 0.471. -/
theorem meanReversion_window3_scenario :
    (mrFeed (mrInit ⟨3, [], false⟩) [10, 10, 10, 13]).2 =
      [none, none, none, some ⟨13, 11, 2⟩] ∧
    mrZScore ⟨13, 11, 2⟩ = Real.sqrt 2 ∧
    mrSignalValue ⟨13, 11, 2⟩ = -1 ∧
    mrConfidence ⟨13, 11, 2⟩ = Real.sqrt 2 / 3 := by
  refine ⟨mrFeed_10_10_10_13, mrZScore_of_fourth_tick, ?_, mrConfidence_of_fourth_tick⟩
  unfold mrSignalValue
  rw [mrZScore_of_fourth_tick]
  have h1 := one_lt_sqrt_two
  rw [min_eq_right (by linarith)]
  exact max_eq_left (by linarith)

/-- Claim C1 counterexample: on the 4th tick the emitted core has window
mean 11 — not 10 as the claim states — and its confidence √2/3 ≈ 0.471 is
below 1/2, far from the claimed ≈ 0.707. -/
theorem meanReversion_scenario_mean_is_eleven :
    (mrFeed (mrInit ⟨3, [], false⟩) [10, 10, 10, 13]).2.getD 3 none =
      some ⟨13, 11, 2⟩ ∧
    (⟨13, 11, 2⟩ : MRSignalCore).mean ≠ 10 ∧
    mrConfidence ⟨13, 11, 2⟩ < 1/2 := by
  refine ⟨by rw [mrFeed_10_10_10_13]; rfl, by norm_num, ?_⟩
  rw [mrConfidence_of_fourth_tick]
  have := sqrt_two_lt_three_halves
  linarith

/-- Helper: NYSE validation as a proposition on the parsed double fields at
offsets 0 (bid) and 8 (ask). -/
theorem nyseValidate_eq_true_iff (d : MarketDataRec) :
    nyseValidate d = true ↔
      (0 < d.bidPrice ∧ 0 < d.askPrice ∧ d.bidPrice ≤ d.askPrice ∧
        d.askPrice - d.bidPrice ≤ (1/10) * ((d.askPrice + d.bidPrice) / 2)) := by
  unfold nyseValidate baseValidate MarketDataRec.spread MarketDataRec.midPrice
  simp only [Bool.and_eq_true, Bool.not_eq_eq_eq_not, Bool.not_true, decide_eq_true_eq,
    decide_eq_false_iff_not, not_lt]
  constructor
  · rintro ⟨⟨⟨h1, h2⟩, h3⟩, h4⟩
    exact ⟨h1, h2, h3, by linarith⟩
  · rintro ⟨h1, h2, h3, h4⟩
    exact ⟨⟨⟨h1, h2⟩, h3⟩, by linarith⟩

/-- Claim C7 (confirmed): for every frame, NYSENormalizer::normalize
returns none when the length is below the 64-byte minimum; every tick it
does return has bid > 0, ask > 0, ask ≥ bid and
ask − bid ≤ 0.1·(ask + bid)/2; and a frame whose parsed bid/ask fields
violate any of these conditions yields none. -/
theorem nyseNormalize_contract (f : RawFrame) :
    (f.length < 64 → nyseNormalize f = none) ∧
    (∀ d, nyseNormalize f = some d →
      0 < d.bidPrice ∧ 0 < d.askPrice ∧ d.bidPrice ≤ d.askPrice ∧
      d.askPrice - d.bidPrice ≤ (1/10) * ((d.askPrice + d.bidPrice) / 2)) ∧
    (¬(0 < f.doubleAt0 ∧ 0 < f.doubleAt8 ∧ f.doubleAt0 ≤ f.doubleAt8 ∧
        f.doubleAt8 - f.doubleAt0 ≤ (1/10) * ((f.doubleAt8 + f.doubleAt0) / 2)) →
      nyseNormalize f = none) := by
  refine ⟨fun h => by simp [nyseNormalize, h], ?_, ?_⟩
  · intro d hd
    simp only [nyseNormalize] at hd
    split_ifs at hd with hlen hv
    rw [Option.some.injEq] at hd
    subst hd
    exact (nyseValidate_eq_true_iff _).mp hv
  · intro hviol
    simp only [nyseNormalize]
    split_ifs with hlen hv
    · rfl
    · exact absurd ((nyseValidate_eq_true_iff _).mp hv) hviol
    · rfl

/-- Witness for nyseNormalize_contract: a 10-byte frame is rejected for
length; a 64-byte frame with bid 0 is rejected by validation; a 64-byte
frame with bid 100 and ask 101 is normalized and satisfies the invariants. -/
theorem nyseNormalize_contract_witness :
    nyseNormalize ⟨10, 1, 1, 1, 0, 0, 0, 0, "X"⟩ = none ∧
    nyseNormalize ⟨64, 0, 1, 1, 0, 0, 0, 0, "X"⟩ = none ∧
    (0 < (100 : ℚ) ∧ 0 < (101 : ℚ) ∧ (100 : ℚ) ≤ 101 ∧
      (101 : ℚ) - 100 ≤ (1/10) * ((101 + 100) / 2)) := by
  refine ⟨(nyseNormalize_contract _).1 (by norm_num),
          (nyseNormalize_contract _).2.2 (by norm_num), ?_⟩
  have h := (nyseNormalize_contract ⟨64, 100, 101, 100, 1, 1, 1, 1, "NYSE"⟩).2.1
    ⟨"NYSE", 100, 101, 100, 1, 1, 1, 1, AssetType.EQUITY, Exchange.NYSE⟩
    (by norm_num [nyseNormalize, nyseValidate, baseValidate,
        MarketDataRec.spread, MarketDataRec.midPrice])
  exact h

/-- Claim C9 (confirmed): DrawdownCheck::validate accepts every order when
start_of_day_nav ≤ 0; otherwise it rejects exactly the Buy orders whose
drawdown −current_pnl/start_of_day_nav exceeds the maximum percentage, and
it accepts every Sell order even while in drawdown. -/
theorem drawdownValidate_contract (c : DrawdownCheckState) (o : Order) :
    (c.startOfDayNAV ≤ 0 → drawdownValidate c o = none) ∧
    (0 < c.startOfDayNAV →
      ((drawdownValidate c o).isSome = true ↔
        (c.maxDrawdownPercentage < -c.currentPnL / c.startOfDayNAV ∧
          o.side = OrderSide.BUY))) ∧
    (o.side = OrderSide.SELL → drawdownValidate c o = none) := by
  refine ⟨fun h => by simp [drawdownValidate, h], ?_, ?_⟩
  · intro hpos
    simp only [drawdownValidate, if_neg (not_le.mpr hpos)]
    split_ifs with hdd hbuy
    · simp [hbuy, hdd]
    · simp [hbuy]
    · simp [hdd]
  · intro hsell
    have hnb : ¬(o.side = OrderSide.BUY) := by
      rw [hsell]
      simp
    simp only [drawdownValidate]
    split_ifs <;> simp_all

/-- Witness for drawdownValidate_contract: with max 5%, NAV 1,000,000 and
PnL −60,000 (6% drawdown) a Buy order is rejected and a Sell order is
accepted; with NAV 0 every order is accepted. -/
theorem drawdownValidate_contract_witness :
    drawdownValidate ⟨1/20, 0, -50⟩ ⟨"o", "A", 10, OrderSide.BUY, 1, 0⟩ = none ∧
    (drawdownValidate ⟨1/20, 1000000, -60000⟩
        ⟨"o", "A", 10, OrderSide.BUY, 1, 0⟩).isSome = true ∧
    drawdownValidate ⟨1/20, 1000000, -60000⟩ ⟨"o", "A", 10, OrderSide.SELL, 1, 0⟩ = none :=
  ⟨(drawdownValidate_contract ⟨1/20, 0, -50⟩ _).1 (by norm_num),
   ((drawdownValidate_contract ⟨1/20, 1000000, -60000⟩ _).2.1 (by norm_num)).mpr
     ⟨by norm_num, rfl⟩,
   (drawdownValidate_contract ⟨1/20, 1000000, -60000⟩ _).2.2 rfl⟩

/-- Helper: the position read by getPosition — the stored one, or a zeroed
position carrying the symbol when the symbol is absent. -/
theorem getPosition_fst (m : PMState) (sym : String) :
    (m sym = none → (getPosition m sym).1 = ⟨sym, 0, 0, 0, 0⟩) ∧
    (∀ pos0, m sym = some pos0 → (getPosition m sym).1 = pos0) := by
  constructor
  · intro h
    simp [getPosition, h]
  · intro pos0 h
    simp [getPosition, h]

/-- Helper: the stored entry for the updated symbol after updatePosition. -/
theorem updatePosition_at_sym (m : PMState) (sym : String) (quantity price : ℚ) :
    updatePosition m sym quantity price sym =
      some ⟨(getPosition m sym).1.symbol,
            (getPosition m sym).1.quantity + quantity,
            (if (getPosition m sym).1.quantity + quantity ≠ 0 then
              ((getPosition m sym).1.quantity * (getPosition m sym).1.avgCost +
                quantity * price) / ((getPosition m sym).1.quantity + quantity)
             else 0),
            (getPosition m sym).1.unrealizedPnL,
            (getPosition m sym).1.realizedPnL⟩ := by
  simp [updatePosition]

/-- Claim C8 (corrected): updatePosition(symbol, Δq, p) sets the new
quantity to q + Δq and the new average cost to (q·avg_cost + Δq·p)/(q + Δq)
when q + Δq ≠ 0 and to 0 otherwise; for a freshly created zero position the
update leaves quantity = Δq and avg_cost = p provided Δq ≠ 0 (with Δq = 0
the new quantity is zero, so the average cost is reset to 0, not p). -/
theorem updatePosition_avg_cost_formula (m : PMState) (sym : String) (dq p : ℚ) :
    ∀ pos1, updatePosition m sym dq p sym = some pos1 →
      pos1.quantity = (getPosition m sym).1.quantity + dq ∧
      ((getPosition m sym).1.quantity + dq ≠ 0 →
        pos1.avgCost =
          ((getPosition m sym).1.quantity * (getPosition m sym).1.avgCost + dq * p) /
            ((getPosition m sym).1.quantity + dq)) ∧
      ((getPosition m sym).1.quantity + dq = 0 → pos1.avgCost = 0) ∧
      (m sym = none → dq ≠ 0 → pos1.quantity = dq ∧ pos1.avgCost = p) := by
  intro pos1 h
  rw [updatePosition_at_sym, Option.some.injEq] at h
  subst h
  refine ⟨rfl, fun hne => by simp [hne], fun hzero => by simp [hzero], ?_⟩
  intro hnone hdq
  rw [(getPosition_fst m sym).1 hnone]
  refine ⟨by simp, ?_⟩
  show (if (0 : ℚ) + dq ≠ 0 then ((0 : ℚ) * 0 + dq * p) / (0 + dq) else 0) = p
  rw [if_pos (by simpa using hdq), zero_mul, zero_add, zero_add, mul_comm,
    mul_div_assoc, div_self hdq, mul_one]

/-- Witness for updatePosition_avg_cost_formula: updating a fresh position
for "A" with quantity 2 at price 5 stores average cost 5. -/
theorem updatePosition_avg_cost_formula_witness :
    (updatePosition (fun _ => none) "A" 2 5 "A").map Position.avgCost = some 5 := by
  have h0 : updatePosition (fun _ => none) "A" 2 5 "A" = some ⟨"A", 2, 5, 0, 0⟩ := by
    norm_num [updatePosition, getPosition]
  have h := (updatePosition_avg_cost_formula (fun _ => none) "A" 2 5 ⟨"A", 2, 5, 0, 0⟩ h0).2.2.2
    rfl (by norm_num)
  rw [h0]
  simp [h.2]

/-- Claim C8 counterexample: updating a freshly created (zero) position with
quantity Δq = 0 at price p = 1 stores quantity 0 and average cost 0, not
avg_cost = p = 1 as the claim's "in particular" asserts for every q, p. -/
theorem updatePosition_fresh_zero_quantity :
    updatePosition (fun _ => none) "A" 0 1 "A" = some ⟨"A", 0, 0, 0, 0⟩ ∧
    (⟨"A", 0, 0, 0, 0⟩ : Position).avgCost ≠ 1 := by
  refine ⟨by norm_num [updatePosition, getPosition], by norm_num⟩

/-- Claim C10 (confirmed): updatePosition(symbol, Δq, p) changes only the
quantity and avgCost fields of the position for that symbol — its symbol,
unrealizedPnL and realizedPnL fields are those of the pre-existing (or
freshly zero-created) position — the positions of every other symbol are
untouched, and since no operation writes the PnL fields, the invariant that
every stored position has both PnL fields equal to 0 is preserved. -/
theorem updatePosition_frame_effect (m : PMState) (sym : String) (dq p : ℚ) :
    (∀ s, s ≠ sym → updatePosition m sym dq p s = m s) ∧
    (∀ pos1, updatePosition m sym dq p sym = some pos1 →
      pos1.symbol = (getPosition m sym).1.symbol ∧
      pos1.unrealizedPnL = (getPosition m sym).1.unrealizedPnL ∧
      pos1.realizedPnL = (getPosition m sym).1.realizedPnL) ∧
    (∀ pos0, m sym = some pos0 → (getPosition m sym).1 = pos0) ∧
    (m sym = none → (getPosition m sym).1 = ⟨sym, 0, 0, 0, 0⟩) ∧
    ((∀ s q, m s = some q → q.unrealizedPnL = 0 ∧ q.realizedPnL = 0) →
      ∀ s q, updatePosition m sym dq p s = some q →
        q.unrealizedPnL = 0 ∧ q.realizedPnL = 0) := by
  have hsnd : ∀ s, s ≠ sym → (getPosition m sym).2 s = m s := by
    intro s hs
    unfold getPosition
    cases hm : m sym with
    | none => simp [if_neg hs]
    | some pos0 => rfl
  refine ⟨?_, ?_, (getPosition_fst m sym).2, (getPosition_fst m sym).1, ?_⟩
  · intro s hs
    simp only [updatePosition, if_neg hs]
    exact hsnd s hs
  · intro pos1 h
    rw [updatePosition_at_sym, Option.some.injEq] at h
    subst h
    exact ⟨rfl, rfl, rfl⟩
  · intro hinv s q h
    by_cases hs : s = sym
    · subst hs
      rw [updatePosition_at_sym, Option.some.injEq] at h
      subst h
      cases hm : m s with
      | none =>
        rw [(getPosition_fst m s).1 hm]
        exact ⟨rfl, rfl⟩
      | some pos0 =>
        rw [(getPosition_fst m s).2 pos0 hm]
        exact hinv s pos0 hm
    · simp only [updatePosition, if_neg hs] at h
      rw [hsnd s hs] at h
      exact hinv s q h

/-- Witness for updatePosition_frame_effect: after updating "A" in the
empty map, the entry for "B" is still absent. -/
theorem updatePosition_frame_effect_witness :
    updatePosition (fun _ => none) "A" 1 5 "B" = none :=
  ((updatePosition_frame_effect (fun _ => none) "A" 1 5).1 "B" (by decide)).trans rfl
